import Mathlib

/-!
Verification of the notification/retry core of the mcp-replicate server.

The TypeScript source is shallowly embedded: each JS function that a claim
touches becomes a Lean definition over explicit state values; asynchronous
control flow (interval timers, pending fetches, pending reconnect sleeps)
becomes an explicit event-step relation on a state record.  JS `Map`s are
association lists with unique keys, JS numbers are `Nat`/`Int`, thrown
exceptions are `Except`.
-/

namespace Retry

/--
`ErrorHandler.withRetries` (both copies of the source agree on this loop):

    for (let attempt = 0; attempt < maxAttempts; attempt++) {
      try { return await operation(); }
      catch (error) {
        lastError = error instanceof Error ? error : new Error(String(error));
        if (attempt === maxAttempts - 1 || !retryIf(lastError)) throw lastError;
        ...delay, onRetry...
      }
    }
    throw lastError || new Error("Operation failed");

The embedding indexes the operation by the attempt number so that each
invocation can fail with its own error.  The result records how many times
the operation was invoked together with the outcome; `Except.error none`
is the fresh `Error("Operation failed")` thrown when the loop body never ran
(only reachable when `maxAttempts = 0`).
`fuel` is the number of loop iterations still allowed, initially
`maxAttempts`, so `attempt + fuel = maxAttempts` throughout.
-/
def withRetriesGo {α E : Type} (op : Nat → Except E α) (retryIf : E → Bool)
    (maxAttempts : Nat) : Nat → Nat → Nat × Except (Option E) α
  | 0, _ => (0, Except.error none)
  | fuel + 1, attempt =>
    match op attempt with
    | Except.ok v => (1, Except.ok v)
    | Except.error e =>
      if attempt = maxAttempts - 1 ∨ retryIf e = false then
        (1, Except.error (some e))
      else
        let rest := withRetriesGo op retryIf maxAttempts fuel (attempt + 1)
        (rest.1 + 1, rest.2)

/-- `ErrorHandler.withRetries`: run the retry loop from attempt 0. -/
def withRetries {α E : Type} (op : Nat → Except E α) (maxAttempts : Nat)
    (retryIf : E → Bool) : Nat × Except (Option E) α :=
  withRetriesGo op retryIf maxAttempts maxAttempts 0

end Retry

namespace Poller

/-- `PredictionStatus` (string union in the source). -/
inductive PredictionStatus where
  | starting
  | processing
  | succeeded
  | failed
  | canceled
deriving DecidableEq, Repr

/-- A terminal status, as tested by the poll loop before `clearInterval`. -/
def PredictionStatus.isTerminal : PredictionStatus → Bool
  | .succeeded => true
  | .failed => true
  | .canceled => true
  | _ => false

/-- The fields of a `Prediction` snapshot that the poller reads. -/
structure Prediction where
  id : String
  status : PredictionStatus
  error : Option String
  logs : Option String
deriving DecidableEq, Repr

/-- The notifications built by `createPredictionStatusNotification`,
`createPredictionProgressNotification` and
`createPredictionErrorNotification`; each carries the prediction id that
forms the `replicate-prediction://` resource URI. -/
inductive Notification where
  | statusNotif (id : String) (status : PredictionStatus)
      (previousStatus : PredictionStatus)
  | progressNotif (id : String) (progress : Nat)
  | errorNotif (id : String) (error : String)
deriving DecidableEq, Repr

def createPredictionStatusNotification (p : Prediction)
    (previousStatus : PredictionStatus) : Notification :=
  Notification.statusNotif p.id p.status previousStatus

def createPredictionProgressNotification (p : Prediction)
    (progress : Nat) : Notification :=
  Notification.progressNotif p.id progress

def createPredictionErrorNotification (p : Prediction)
    (error : String) : Notification :=
  Notification.errorNotif p.id error

/-- Value of a decimal digit character, `none` otherwise. -/
def digitVal (c : Char) : Option Nat :=
  if 48 ≤ c.toNat ∧ c.toNat ≤ 57 then some (c.toNat - 48) else none

/-- Munch a maximal run of leading decimal digits (the greedy match of
the regex atom `\d+`). -/
def takeDigits : List Char → List Nat × List Char
  | [] => ([], [])
  | c :: rest =>
    match digitVal c with
    | some d =>
      let t := takeDigits rest
      (d :: t.1, t.2)
    | none => ([], c :: rest)

def digitsToNat (ds : List Nat) : Nat :=
  ds.foldl (fun acc d => acc * 10 + d) 0

/-- Try to match the regex `progress: (\d+)%` anchored at the head of the
character list: literal `progress: `, then one or more digits, then `%`. -/
def matchProgressAt (cs : List Char) : Option Nat :=
  match cs with
  | 'p' :: 'r' :: 'o' :: 'g' :: 'r' :: 'e' :: 's' :: 's' :: ':' :: ' ' :: rest =>
    match takeDigits rest with
    | ([], _) => none
    | (ds, after) =>
      match after with
      | '%' :: _ => some (digitsToNat ds)
      | _ => none
  | _ => none

/-- `logs.match(/progress: (\d+)%/)`: first match anywhere in the string. -/
def scanProgress : List Char → Option Nat
  | [] => none
  | c :: rest =>
    match matchProgressAt (c :: rest) with
    | some n => some n
    | none => scanProgress rest

/-- `estimateProgress` from the source:

    if (prediction.status === "succeeded") return 100;
    if (prediction.status === "failed" || prediction.status === "canceled") return 0;
    if (prediction.status === "starting") return 0;
    if (prediction.logs) { const match = logs.match(/progress: (\d+)%/);
      if (match) return parseInt(match[1], 10); }
    return prediction.status === "processing" ? 50 : 0;

An empty `logs` string is falsy in JS, so it skips the regex branch. -/
def estimateProgress (p : Prediction) : Nat :=
  if p.status = .succeeded then 100
  else if p.status = .failed ∨ p.status = .canceled then 0
  else if p.status = .starting then 0
  else
    let dflt := if p.status = .processing then 50 else 0
    match p.logs with
    | some l =>
      if l = "" then dflt
      else
        match scanProgress l.toList with
        | some n => n
        | none => dflt
    | none => dflt

end Poller

namespace JsMap

/-- JS `Map.get`. Keys are unique in a JS `Map`; the model is an
insertion-ordered association list. -/
def get {β : Type} : List (String × β) → String → Option β
  | [], _ => none
  | (k, v) :: rest, key => if k = key then some v else get rest key

/-- JS `Map.set`: update in place if the key exists, else append. -/
def set {β : Type} : List (String × β) → String → β → List (String × β)
  | [], key, v => [(key, v)]
  | (k, w) :: rest, key, v =>
    if k = key then (key, v) :: rest else (k, w) :: set rest key v

/-- JS `Map.delete` (on a unique-key map: drop every entry with the key). -/
def del {β : Type} : List (String × β) → String → List (String × β)
  | [], _ => []
  | (k, w) :: rest, key =>
    if k = key then del rest key else (k, w) :: del rest key

end JsMap

namespace Poller

/-- The shared `Cache` object: the two prediction maps the handlers touch. -/
structure Cache where
  predictionCache : List (String × Prediction)
  predictionStatus : List (String × PredictionStatus)
deriving DecidableEq, Repr

/-- State of one tracked job's polling loop from `handleCreatePrediction`:
the shared cache, whether the `setInterval` timer is still installed
(`active`; cleared by `clearInterval`), and how many
`client.getPredictionStatus` calls are currently awaited (`inFlight`). -/
structure PollState where
  cache : Cache
  active : Bool
  inFlight : Nat
deriving DecidableEq, Repr

/-- The body of the poll callback after its awaited fetch resolves with
`updated` (source lines 262-318 of the tool handler file):

    const previousStatus = cache.predictionStatus.get(prediction.id);
    cache.predictionCache.set(updatedPrediction.id, updatedPrediction);
    if (previousStatus && updatedPrediction.status !== previousStatus) {
      cache.predictionStatus.set(updatedPrediction.id, updatedPrediction.status);
      notify(createPredictionStatusNotification(updatedPrediction, previousStatus));
      if (status === "processing") notify(progress(estimateProgress));
      if (terminal) { clearInterval(pollInterval);
        if (status === "failed" && error) notify(errorNotification); } }

`jobId` is the id of the prediction captured by the closure. -/
def pollTickBody (jobId : String) (st : PollState) (updated : Prediction) :
    PollState × List Notification :=
  let previousStatus := JsMap.get st.cache.predictionStatus jobId
  let cache1 : Cache :=
    { st.cache with
      predictionCache := JsMap.set st.cache.predictionCache updated.id updated }
  match previousStatus with
  | some p =>
    if updated.status ≠ p then
      let cache2 : Cache :=
        { cache1 with
          predictionStatus :=
            JsMap.set cache1.predictionStatus updated.id updated.status }
      let evs := [createPredictionStatusNotification updated p]
      let evs := evs ++
        (if updated.status = .processing then
          [createPredictionProgressNotification updated (estimateProgress updated)]
        else [])
      if updated.status.isTerminal then
        let evs := evs ++
          (match updated.status, updated.error with
           | .failed, some msg => [createPredictionErrorNotification updated msg]
           | _, _ => [])
        ({ st with cache := cache2, active := false }, evs)
      else
        ({ st with cache := cache2 }, evs)
    else ({ st with cache := cache1 }, [])
  | none => ({ st with cache := cache1 }, [])

/-- Scheduler-level events of the polling loop: the interval timer firing
(which starts the callback, immediately suspending at the status fetch) and
a pending fetch resolving with a snapshot. -/
inductive PollEvent where
  | tickFire
  | fetchComplete (u : Prediction)
deriving DecidableEq, Repr

/-- One scheduler event.  A timer only fires while the interval is
installed; the source callback starts its fetch unconditionally (there is
no in-flight guard in the code).  A resolved fetch runs the callback
body. -/
def pollStep (jobId : String) (st : PollState) :
    PollEvent → PollState × List Notification
  | .tickFire =>
    if st.active then ({ st with inFlight := st.inFlight + 1 }, []) else (st, [])
  | .fetchComplete u =>
    if st.inFlight = 0 then (st, [])
    else pollTickBody jobId { st with inFlight := st.inFlight - 1 } u

/-- Run a list of scheduler events, collecting each event's output. -/
def pollRunEvents (jobId : String) (st : PollState) :
    List PollEvent → PollState × List (List Notification)
  | [] => (st, [])
  | e :: rest =>
    let s1 := pollStep jobId st e
    let s2 := pollRunEvents jobId s1.1 rest
    (s2.1, s1.2 :: s2.2)

/-- Non-overlapping polling: each snapshot is one timer fire immediately
followed by its fetch resolving.  Returns the per-snapshot outputs. -/
def pollRunSnapshots (jobId : String) (st : PollState) :
    List Prediction → PollState × List (List Notification)
  | [] => (st, [])
  | u :: rest =>
    let s1 := pollStep jobId st .tickFire
    let s2 := pollStep jobId s1.1 (.fetchComplete u)
    let s3 := pollRunSnapshots jobId s2.1 rest
    (s3.1, (s1.2 ++ s2.2) :: s3.2)

/-- `handleCancelPrediction`: refresh the cache from the cancel response and
notify whenever a previous status was cached — with no check that the
status actually changed. -/
def handleCancelPrediction (c : Cache) (prediction : Prediction) :
    Cache × List Notification :=
  let previousStatus := JsMap.get c.predictionStatus prediction.id
  let c1 : Cache :=
    { predictionCache := JsMap.set c.predictionCache prediction.id prediction,
      predictionStatus :=
        JsMap.set c.predictionStatus prediction.id prediction.status }
  match previousStatus with
  | some p => (c1, [createPredictionStatusNotification prediction p])
  | none => (c1, [])

/-- `handleGetPrediction`: refresh the cache and notify only when the
status changed; on a failed prediction with an error, also notify the
error. -/
def handleGetPrediction (c : Cache) (prediction : Prediction) :
    Cache × List Notification :=
  let previousStatus := JsMap.get c.predictionStatus prediction.id
  let c1 : Cache :=
    { predictionCache := JsMap.set c.predictionCache prediction.id prediction,
      predictionStatus :=
        JsMap.set c.predictionStatus prediction.id prediction.status }
  match previousStatus with
  | some p =>
    if prediction.status ≠ p then
      let evs := [createPredictionStatusNotification prediction p]
      let evs := evs ++
        (match prediction.status, prediction.error with
         | .failed, some msg => [createPredictionErrorNotification prediction msg]
         | _, _ => [])
      (c1, evs)
    else (c1, [])
  | none => (c1, [])

/-- `handleListPredictions`: for each listed prediction, run the same
refresh-and-notify statements as `handleGetPrediction` (the two source
bodies are textually identical), concatenating the notifications. -/
def handleListPredictions (c : Cache) :
    List Prediction → Cache × List Notification
  | [] => (c, [])
  | p :: rest =>
    let s1 := handleGetPrediction c p
    let s2 := handleListPredictions s1.1 rest
    (s2.1, s1.2 ++ s2.2)

/-- A status notification reports a genuine transition (`from ≠ to`);
other notification kinds are unconstrained. -/
def transitionOk : Notification → Bool
  | .statusNotif _ s p => s != p
  | _ => true

/-- A snapshot of job `p1` with the given status and no error or logs. -/
def snap (s : PredictionStatus) : Prediction :=
  { id := "p1", status := s, error := none, logs := none }

/-- The poll-loop state right after `handleCreatePrediction` installed the
interval for a job created in status `starting`: both caches hold the
initial snapshot and the timer is active. -/
def initPollState : PollState :=
  { cache := { predictionCache := [("p1", snap .starting)],
               predictionStatus := [("p1", .starting)] },
    active := true, inFlight := 0 }

/-- A poll-loop state whose job has reached `succeeded`: the interval has
been cleared and no fetch is pending. -/
def donePollState : PollState :=
  { cache := { predictionCache := [("p1", snap .succeeded)],
               predictionStatus := [("p1", .succeeded)] },
    active := false, inFlight := 0 }

end Poller

namespace Transport

/-- `EventSource.readyState`: CONNECTING, OPEN or CLOSED.  (`open` is
reserved in Lean, hence `opened`.) -/
inductive ReadyState where
  | connecting
  | opened
  | closed
deriving DecidableEq, Repr

/-- Events the transport `emit`s to its listeners. -/
inductive TransportEvent where
  | connectedEv
  | openEv
  | disconnectedEv
  | errorEv (msg : String)
deriving DecidableEq, Repr

/-- `SSEServerTransport`'s own state.  `connections` maps connection id to
the `EventSource`'s ready state; `keepAliveIntervals` holds the ids with a
live keep-alive timer; `pendingReconnects` holds the ids whose `reconnect`
is currently sleeping in its backoff `setTimeout` (that anonymous timer is
not stored anywhere in the source, so nothing can cancel it); `events` is
the trace of emitted transport events. -/
structure SSEServerTransport where
  connections : List (String × ReadyState)
  keepAliveIntervals : List String
  reconnectAttempts : List (String × Nat)
  subscriptions : List (String × List String)
  isConnected : Bool
  pendingReconnects : List String
  events : List TransportEvent
deriving DecidableEq, Repr

/-- `subscribe(connectionId, resourceUri)`: add the URI to that
connection's own subscription set, if the set exists. -/
def subscribe (st : SSEServerTransport) (connectionId resourceUri : String) :
    SSEServerTransport :=
  match JsMap.get st.subscriptions connectionId with
  | some subs =>
    { st with
      subscriptions := JsMap.set st.subscriptions connectionId
        (if subs.contains resourceUri then subs else subs ++ [resourceUri]) }
  | none => st

/-- `unsubscribe(connectionId, resourceUri)`. -/
def unsubscribe (st : SSEServerTransport) (connectionId resourceUri : String) :
    SSEServerTransport :=
  match JsMap.get st.subscriptions connectionId with
  | some subs =>
    { st with
      subscriptions := JsMap.set st.subscriptions connectionId
        (subs.erase resourceUri) }
  | none => st

/-- `notify(notification)`: dispatch to every connection that exists, is
`OPEN`, and whose subscription set contains the notification's resource
URI (when the notification carries one).  Returns the ids dispatched to,
in subscription-map order.  The function is total: it cannot throw. -/
def notify (st : SSEServerTransport) (uri : Option String) : List String :=
  st.subscriptions.filterMap fun cs =>
    match JsMap.get st.connections cs.1 with
    | some rs =>
      if rs = ReadyState.opened then
        match uri with
        | some u => if cs.2.contains u then some cs.1 else none
        | none => none
      else none
    | none => none

/-- `cleanupConnection(connectionId)`: close the `EventSource`, clear the
keep-alive interval, delete the id from all four maps, and emit
`disconnected` once no connections remain. -/
def cleanupConnection (st : SSEServerTransport) (connectionId : String) :
    SSEServerTransport :=
  let st1 : SSEServerTransport :=
    { st with
      connections := JsMap.del st.connections connectionId,
      keepAliveIntervals :=
        st.keepAliveIntervals.filter (fun x => x != connectionId),
      reconnectAttempts := JsMap.del st.reconnectAttempts connectionId,
      subscriptions := JsMap.del st.subscriptions connectionId }
  if st1.connections = [] then
    { st1 with events := st1.events ++ [TransportEvent.disconnectedEv] }
  else st1

/-- `disconnect()`: set `isConnected := false` first, then clean up every
current connection.  Nothing here touches `pendingReconnects`. -/
def disconnect (st : SSEServerTransport) : SSEServerTransport :=
  let st1 : SSEServerTransport := { st with isConnected := false }
  (st1.connections.map Prod.fst).foldl cleanupConnection st1

/-- The `onerror` handler installed by `setupEventHandlers`: below the
reconnection ceiling, bump the attempt count, close the failed connection
and start `reconnect`'s backoff sleep (the pending reconnect); at the
ceiling, clean the connection up and emit an `error` event.  Note that
`isConnected` is never consulted. -/
def onError (st : SSEServerTransport) (connectionId : String) :
    SSEServerTransport :=
  let attempts := (JsMap.get st.reconnectAttempts connectionId).getD 0
  if attempts < 5 then
    { st with
      reconnectAttempts :=
        JsMap.set st.reconnectAttempts connectionId (attempts + 1),
      connections :=
        match JsMap.get st.connections connectionId with
        | some _ => JsMap.set st.connections connectionId ReadyState.closed
        | none => st.connections,
      pendingReconnects := st.pendingReconnects ++ [connectionId] }
  else
    let st1 := cleanupConnection st connectionId
    { st1 with
      events := st1.events ++
        [TransportEvent.errorEv "Max reconnection attempts reached"] }

/-- The tail of `reconnect(connectionId)` once its backoff sleep finishes:
create a fresh `EventSource` (state CONNECTING) and store it under the same
id, installing handlers.  No flag or map-membership check is made. -/
def reconnectFire (st : SSEServerTransport) (connectionId : String) :
    SSEServerTransport :=
  { st with
    pendingReconnects := st.pendingReconnects.erase connectionId,
    connections :=
      JsMap.set st.connections connectionId ReadyState.connecting }

/-- A transport with a single open, subscribed connection `c1`, as left by
`connect()` followed by `subscribe("c1", "job://1")`. -/
def st1conn : SSEServerTransport :=
  { connections := [("c1", ReadyState.opened)],
    keepAliveIntervals := ["c1"],
    reconnectAttempts := [("c1", 0)],
    subscriptions := [("c1", ["job://1"])],
    isConnected := true,
    pendingReconnects := [],
    events := [] }

end Transport

namespace Webhook

/-- `WebhookConfig`.  JS numbers are modelled as `Int` (every value the
validation logic distinguishes is an integer). -/
structure WebhookConfig where
  url : String
  secret : Option String
  retries : Option Int
  timeout : Option Int
deriving DecidableEq, Repr

/-- `Partial<WebhookConfig>` as accepted by `queueWebhook`: every field,
including `url`, may be absent. -/
structure PartialWebhookConfig where
  url : Option String
  secret : Option String
  retries : Option Int
  timeout : Option Int
deriving DecidableEq, Repr

/-- `WebhookEvent`: the `data` record is opaque to the service, modelled
as a string. -/
structure WebhookEvent where
  type : String
  timestamp : String
  data : String
deriving DecidableEq, Repr

/-- `WebhookDeliveryResult`; the ISO timestamp string is modelled as the
`Nat` clock value at which the attempt finished. -/
structure WebhookDeliveryResult where
  success : Bool
  statusCode : Option Int
  error : Option String
  retryCount : Nat
  timestamp : Nat
deriving DecidableEq, Repr

/-- `QueuedWebhook`; `lastAttempt`/`nextAttempt` dates are `Nat` clock
values. -/
structure QueuedWebhook where
  id : String
  config : WebhookConfig
  event : WebhookEvent
  retryCount : Nat
  lastAttempt : Option Nat
  nextAttempt : Option Nat
deriving DecidableEq, Repr

/-- `WebhookService`'s private state. -/
structure WebhookService where
  queue : List (String × QueuedWebhook)
  processing : Bool
  deliveryResults : List (String × List WebhookDeliveryResult)
deriving DecidableEq, Repr

/-- The state built by the constructor. -/
def emptyWebhookService : WebhookService :=
  { queue := [], processing := false, deliveryResults := [] }

/-- `{...DEFAULT_WEBHOOK_CONFIG, ...config} as WebhookConfig`: present
fields of the partial config win; `retries` defaults to 3 and `timeout`
to 10000.  A missing `url` stays `undefined` in JS, rendered here as the
string coercion each later use would see. -/
def mergeConfig (p : PartialWebhookConfig) : WebhookConfig :=
  { url := p.url.getD "undefined",
    secret := p.secret,
    retries := p.retries.or (some 3),
    timeout := p.timeout.or (some 10000) }

/-- `WebhookService.queueWebhook`: merge defaults, enqueue a pending
delivery with `retryCount := 0` under a fresh id, and return the id.
Nothing is validated here; the queue processor is kicked off as a detached
task (modelled separately). -/
def queueWebhook (st : WebhookService) (config : PartialWebhookConfig)
    (event : WebhookEvent) (freshId : String) : WebhookService × String :=
  let fullConfig := mergeConfig config
  ({ st with
      queue := JsMap.set st.queue freshId
        { id := freshId, config := fullConfig, event := event,
          retryCount := 0, lastAttempt := none, nextAttempt := none } },
   freshId)

/-- `WebhookService.getDeliveryResults`. -/
def getDeliveryResults (st : WebhookService) (webhookId : String) :
    List WebhookDeliveryResult :=
  (JsMap.get st.deliveryResults webhookId).getD []

/-- `WebhookService.recordDeliveryResult`: append, keep the last 10. -/
def recordDeliveryResult (st : WebhookService) (webhookId : String)
    (result : WebhookDeliveryResult) : WebhookService :=
  let results := (JsMap.get st.deliveryResults webhookId).getD []
  let results := results ++ [result]
  let results :=
    if results.length > 10 then results.drop (results.length - 10)
    else results
  { st with
    deliveryResults := JsMap.set st.deliveryResults webhookId results }

/-- Model of the WHATWG `URL` constructor called by
`validateWebhookConfig` (a platform builtin, not repository code):
parsing succeeds iff the string has a nonempty ASCII-alphabetic scheme
followed by a colon and a nonempty remainder.  This is what the real
parser decides on every concrete URL appearing in this development. -/
def urlParses (s : String) : Bool :=
  let p := s.toList.span (fun c => c.isAlpha)
  (!p.1.isEmpty) &&
    (match p.2 with
     | ':' :: r => !r.isEmpty
     | _ => false)

/-- `validateWebhookConfig` from the models file.  An empty `secret`
string is falsy in JS, so it skips the length check; `retries` and
`timeout` are integers by construction in this model, so
`Number.isInteger` holds and only the range checks remain. -/
def validateWebhookConfig (config : WebhookConfig) : List String :=
  let errors : List String := []
  let errors := errors ++
    (if urlParses config.url then [] else ["Invalid webhook URL"])
  let errors := errors ++
    (match config.secret with
     | some s =>
       if s ≠ "" ∧ s.length < 32 then
         ["Webhook secret should be at least 32 characters long"]
       else []
     | none => [])
  let errors := errors ++
    (match config.retries with
     | some r => if r < 0 then ["Retries must be a non-negative integer"] else []
     | none => [])
  let errors := errors ++
    (match config.timeout with
     | some t => if t < 1000 then ["Timeout must be at least 1000ms"] else []
     | none => [])
  errors

/-- `calculateRetryDelay`: capped exponential backoff plus a jitter drawn
uniformly from `[0, 1000)`, passed in explicitly here. -/
def calculateRetryDelay (attempt : Nat) (jitter : Nat) : Nat :=
  min (1000 * 2 ^ attempt) 60000 + jitter

/-- Outcome of the `fetch` POST inside `deliverWebhook`: either an HTTP
response (whose `ok` flag is `200 ≤ status < 300` per the Fetch spec) or
a thrown error (network failure or the timeout's abort). -/
inductive FetchOutcome where
  | response (status : Int) (statusText : String)
  | thrown (message : String)
deriving DecidableEq, Repr

/-- `WebhookService.deliverWebhook` with the fetch outcome, the clock
value `now` and the retry jitter made explicit: record a result for the
attempt, then either reschedule (`retryCount+1`, `nextAttempt`) while
`retryCount < maxRetries` on a failure, or drop the delivery from the
queue (terminal success, or retries exhausted). -/
def deliverWebhook (now jitter : Nat) (outcome : FetchOutcome)
    (st : WebhookService) (w : QueuedWebhook) : WebhookService :=
  let maxRetries := w.config.retries.getD 3
  match outcome with
  | .response status statusText =>
    let ok : Bool := decide (200 ≤ status ∧ status < 300)
    let result : WebhookDeliveryResult :=
      { success := ok, statusCode := some status,
        error :=
          if ok then none
          else some ("HTTP " ++ toString status ++ ": " ++ statusText),
        retryCount := w.retryCount, timestamp := now }
    let st1 := recordDeliveryResult st w.id result
    if ok = false ∧ (w.retryCount : Int) < maxRetries then
      let delay := calculateRetryDelay w.retryCount jitter
      { st1 with
        queue := JsMap.set st1.queue w.id
          { w with retryCount := w.retryCount + 1,
                   lastAttempt := some now,
                   nextAttempt := some (now + delay) } }
    else { st1 with queue := JsMap.del st1.queue w.id }
  | .thrown msg =>
    let result : WebhookDeliveryResult :=
      { success := false, statusCode := none, error := some msg,
        retryCount := w.retryCount, timestamp := now }
    let st1 := recordDeliveryResult st w.id result
    if (w.retryCount : Int) < maxRetries then
      let delay := calculateRetryDelay w.retryCount jitter
      { st1 with
        queue := JsMap.set st1.queue w.id
          { w with retryCount := w.retryCount + 1,
                   lastAttempt := some now,
                   nextAttempt := some (now + delay) } }
    else { st1 with queue := JsMap.del st1.queue w.id }

/-- The queue-processing loop specialised to one tracked delivery against
an endpoint that answers HTTP 500 to every attempt: while the delivery is
pending, wait until it is due (`nextAttempt`) and attempt it.  `fuel`
bounds the loop; the claim instances leave with fuel to spare. -/
def runAlways500 (st : WebhookService) (webhookId : String) :
    Nat → Nat → WebhookService
  | 0, _ => st
  | fuel + 1, now =>
    match JsMap.get st.queue webhookId with
    | none => st
    | some w =>
      let t := max now (w.nextAttempt.getD now)
      runAlways500
        (deliverWebhook t 0 (.response 500 "Internal Server Error") st w)
        webhookId fuel (t + 1)

end Webhook

namespace Crypto

/-!
`generateWebhookSignature` calls Node's `crypto.createHmac("sha256", ...)`
and `verifyWebhookSignature` calls `crypto.timingSafeEqual`.  HMAC-SHA-256
is implemented here concretely (FIPS 180-4 / RFC 2104) over byte lists
(`List Nat`, each entry < 256), matching the bytes Node feeds the digest.
-/

/-- Truncate to a 32-bit word. -/
def w32 (x : Nat) : Nat := x % 4294967296

/-- 32-bit rotate right. -/
def rotr (n x : Nat) : Nat := w32 (x / 2 ^ n + x % 2 ^ n * 2 ^ (32 - n))

/-- Logical shift right. -/
def shr (n x : Nat) : Nat := x / 2 ^ n

/-- 32-bit bitwise complement. -/
def bnot32 (x : Nat) : Nat := x ^^^ 4294967295

/-- Trial-division primality test (used only to build the round
constants). -/
def isPrimeNat (n : Nat) : Bool :=
  decide (2 ≤ n) && (((List.range n).drop 2).all (fun d => n % d ≠ 0))

/-- The first `count` primes (2, 3, 5, ...). -/
def firstPrimes (count : Nat) : List Nat :=
  ((List.range 400).filter isPrimeNat).take count

/-- Bisection step for the integer cube root: maintains
`lo ^ 3 ≤ n < hi ^ 3`. -/
def cbrtSearch (n : Nat) (lo hi : Nat) : Nat :=
  if hi - lo ≤ 1 then lo
  else
    let mid := (lo + hi) / 2
    if mid ^ 3 ≤ n then cbrtSearch n mid hi else cbrtSearch n lo mid
termination_by hi - lo
decreasing_by
  all_goals omega

/-- Integer cube root. -/
def icbrt (n : Nat) : Nat := cbrtSearch n 0 (n + 1)

/-- SHA-256 round constants, by their FIPS 180-4 definition: the first 32
bits of the fractional parts of the cube roots of the first 64 primes. -/
def K : List Nat :=
  (firstPrimes 64).map (fun p => icbrt (p * 2 ^ 96) % 2 ^ 32)

/-- The eight 32-bit words of a SHA-256 state. -/
structure Hash8 where
  h0 : Nat
  h1 : Nat
  h2 : Nat
  h3 : Nat
  h4 : Nat
  h5 : Nat
  h6 : Nat
  h7 : Nat
deriving DecidableEq, Repr

/-- The first 32 bits of the fractional parts of the square roots of the
first 8 primes. -/
def initWords : List Nat :=
  (firstPrimes 8).map (fun p => Nat.sqrt (p * 2 ^ 64) % 2 ^ 32)

/-- SHA-256 initial state (FIPS 180-4). -/
def initH : Hash8 :=
  ⟨initWords.getD 0 0, initWords.getD 1 0, initWords.getD 2 0,
   initWords.getD 3 0, initWords.getD 4 0, initWords.getD 5 0,
   initWords.getD 6 0, initWords.getD 7 0⟩

/-- The working registers of the compression loop. -/
structure Regs where
  a : Nat
  b : Nat
  c : Nat
  d : Nat
  e : Nat
  f : Nat
  g : Nat
  h : Nat
deriving DecidableEq, Repr

/-- One round of the SHA-256 compression function, fed `(kᵢ, wᵢ)`. -/
def compressRound (r : Regs) (kw : Nat × Nat) : Regs :=
  let s1 := rotr 6 r.e ^^^ rotr 11 r.e ^^^ rotr 25 r.e
  let ch := r.e &&& r.f ^^^ bnot32 r.e &&& r.g
  let temp1 := w32 (r.h + s1 + ch + kw.1 + kw.2)
  let s0 := rotr 2 r.a ^^^ rotr 13 r.a ^^^ rotr 22 r.a
  let maj := r.a &&& r.b ^^^ r.a &&& r.c ^^^ r.b &&& r.c
  let temp2 := w32 (s0 + maj)
  { a := w32 (temp1 + temp2), b := r.a, c := r.b, d := r.c,
    e := w32 (r.d + temp1), f := r.e, g := r.f, h := r.g }

/-- Append the next word of the message schedule. -/
def extendStep (ws : List Nat) : List Nat :=
  let n := ws.length
  let w15 := ws.getD (n - 15) 0
  let w2 := ws.getD (n - 2) 0
  let w16 := ws.getD (n - 16) 0
  let w7 := ws.getD (n - 7) 0
  let s0 := rotr 7 w15 ^^^ rotr 18 w15 ^^^ shr 3 w15
  let s1 := rotr 17 w2 ^^^ rotr 19 w2 ^^^ shr 10 w2
  ws ++ [w32 (w16 + s0 + w7 + s1)]

/-- Extend 16 words to the 64-word message schedule. -/
def extendWords (ws : List Nat) : List Nat :=
  (List.range 48).foldl (fun acc _ => extendStep acc) ws

/-- Read a 64-byte chunk as 16 big-endian 32-bit words. -/
def bytesToWords (chunk : List Nat) : List Nat :=
  (List.range 16).map fun i =>
    chunk.getD (4 * i) 0 * 16777216 + chunk.getD (4 * i + 1) 0 * 65536 +
      chunk.getD (4 * i + 2) 0 * 256 + chunk.getD (4 * i + 3) 0

/-- Compress one 64-byte chunk into the state. -/
def compressChunk (h : Hash8) (chunk : List Nat) : Hash8 :=
  let ws := extendWords (bytesToWords chunk)
  let r0 : Regs := ⟨h.h0, h.h1, h.h2, h.h3, h.h4, h.h5, h.h6, h.h7⟩
  let r := (K.zip ws).foldl compressRound r0
  ⟨w32 (h.h0 + r.a), w32 (h.h1 + r.b), w32 (h.h2 + r.c), w32 (h.h3 + r.d),
   w32 (h.h4 + r.e), w32 (h.h5 + r.f), w32 (h.h6 + r.g), w32 (h.h7 + r.h)⟩

/-- 64-bit big-endian byte encoding (for the message bit length). -/
def lenBE8 (n : Nat) : List Nat :=
  [n / 2 ^ 56 % 256, n / 2 ^ 48 % 256, n / 2 ^ 40 % 256, n / 2 ^ 32 % 256,
   n / 2 ^ 24 % 256, n / 2 ^ 16 % 256, n / 2 ^ 8 % 256, n % 256]

/-- SHA-256 padding: `0x80`, zeros to 56 mod 64, then the bit length. -/
def padMessage (msg : List Nat) : List Nat :=
  let L := msg.length
  let k := (64 - (L + 9) % 64) % 64
  msg ++ [128] ++ List.replicate k 0 ++ lenBE8 (8 * L)

/-- Split into 64-byte chunks. -/
def chunks64 (l : List Nat) : List (List Nat) :=
  if _hl : l = [] then []
  else l.take 64 :: chunks64 (l.drop 64)
termination_by l.length
decreasing_by
  have hp : 0 < l.length := List.length_pos.mpr _hl
  simp only [List.length_drop]
  omega

/-- 32-bit word to 4 big-endian bytes. -/
def wordBE (w : Nat) : List Nat :=
  [w / 16777216 % 256, w / 65536 % 256, w / 256 % 256, w % 256]

/-- Serialize the final state to the 32-byte digest. -/
def digestBytes (h : Hash8) : List Nat :=
  wordBE h.h0 ++ wordBE h.h1 ++ wordBE h.h2 ++ wordBE h.h3 ++
    wordBE h.h4 ++ wordBE h.h5 ++ wordBE h.h6 ++ wordBE h.h7

/-- SHA-256 of a byte list. -/
def sha256 (msg : List Nat) : List Nat :=
  digestBytes ((chunks64 (padMessage msg)).foldl compressChunk initH)

/-- HMAC-SHA-256 (RFC 2104), as `crypto.createHmac("sha256", secret)`
computes it: hash long keys, zero-pad to the 64-byte block, XOR with the
inner/outer pads. -/
def hmacSha256 (key msg : List Nat) : List Nat :=
  let k1 := if key.length > 64 then sha256 key else key
  let k2 := k1 ++ List.replicate (64 - k1.length) 0
  let inner := k2.map (fun b => b ^^^ 54)
  let outer := k2.map (fun b => b ^^^ 92)
  sha256 (outer ++ sha256 (inner ++ msg))

/-- ASCII code of a lowercase hex digit, as `digest("hex")` prints. -/
def hexDigit (n : Nat) : Nat := if n < 10 then 48 + n else 87 + n

/-- Lowercase hex encoding of a byte list (two ASCII bytes per byte). -/
def hexBytes : List Nat → List Nat
  | [] => []
  | b :: rest => hexDigit (b / 16) :: hexDigit (b % 16) :: hexBytes rest

/-- The ASCII bytes of the literal prefix `sha256=`. -/
def sha256Prefix : List Nat := [115, 104, 97, 50, 53, 54, 61]

/-- `generateWebhookSignature(payload, secret)`:
`sha256=` followed by the lowercase hex HMAC digest. -/
def generateWebhookSignature (payload secret : List Nat) : List Nat :=
  sha256Prefix ++ hexBytes (hmacSha256 secret payload)

/-- `crypto.timingSafeEqual(a, b)`: equal-length buffers compare
byte-wise; unequal lengths throw a `RangeError`. -/
def timingSafeEqual (a b : List Nat) : Except String Bool :=
  if a.length = b.length then Except.ok (a == b)
  else Except.error "Input buffers must have the same byte length"

/-- `verifyWebhookSignature(payload, signature, secret)`: recompute the
expected signature and compare with `timingSafeEqual`; a length mismatch
propagates that function's exception. -/
def verifyWebhookSignature (payload signature secret : List Nat) :
    Except String Bool :=
  let expectedSignature := generateWebhookSignature payload secret
  timingSafeEqual signature expectedSignature

end Crypto

theorem Retry.withRetriesGo_always_fail {α E : Type} (err : Nat → E)
    (maxAttempts : Nat) :
    ∀ fuel attempt, 1 ≤ fuel → attempt + fuel = maxAttempts →
      Retry.withRetriesGo (α := α) (fun k => Except.error (err k))
        (fun _ => true) maxAttempts fuel attempt =
      (fuel, Except.error (some (err (maxAttempts - 1)))) := by
  intro fuel
  induction fuel with
  | zero => intro attempt h; omega
  | succ n ih =>
    intro attempt _ hsum
    by_cases hlast : attempt = maxAttempts - 1
    · have hn : n = 0 := by omega
      subst hn
      simp [Retry.withRetriesGo, hlast]
    · have h1 : 1 ≤ n := by omega
      have h2 : attempt + 1 + n = maxAttempts := by omega
      simp [Retry.withRetriesGo, hlast, ih (attempt + 1) h1 h2]

/-- C1: for every operation that fails on every invocation and every
`maxAttempts = n ≥ 1`, with a retry predicate accepting every error,
`ErrorHandler.withRetries` invokes the operation exactly `n` times and the
final rejection is the operation's own last error (`err (n-1)`), rethrown
unchanged with no wrapping. -/
theorem C1_withRetries_always_fail {α E : Type} (err : Nat → E) (n : Nat)
    (hn : 1 ≤ n) :
    Retry.withRetries (α := α) (fun k => Except.error (err k)) n
      (fun _ => true) =
    (n, Except.error (some (err (n - 1)))) := by
  exact Retry.withRetriesGo_always_fail err n n 0 hn (by omega)

/-- Witness for C1 at `n = 3` with errors `0, 1, 2 : Nat`: three invocations,
final rejection is the third error `2`. -/
theorem C1_withRetries_always_fail_witness :
    (1 ≤ 3) ∧
    Retry.withRetries (α := Unit) (fun k => Except.error k) 3
      (fun _ => true) = (3, Except.error (some 2)) :=
  ⟨by decide, C1_withRetries_always_fail (fun k => k) 3 (by decide)⟩

theorem JsMap.get_set_self {β : Type} (m : List (String × β)) (key : String)
    (v : β) : JsMap.get (JsMap.set m key v) key = some v := by
  induction m with
  | nil => simp [JsMap.get, JsMap.set]
  | cons hd tl ih =>
    by_cases h : hd.1 = key <;> simp [JsMap.get, JsMap.set, h, ih]

/-- C2: polling job `p1` with successive fetched snapshots
`[starting, starting, processing, processing, succeeded]` emits, per tick,
nothing for an unchanged snapshot, the `starting→processing` transition
(with its progress estimate) on the third tick, and the
`processing→succeeded` transition on the fifth, after which the repeating
poll is stopped (`active = false`): exactly two status-transition events,
in that order. -/
theorem C2_poll_snapshot_sequence :
    Poller.pollRunSnapshots "p1" Poller.initPollState
        [Poller.snap .starting, Poller.snap .starting,
         Poller.snap .processing, Poller.snap .processing,
         Poller.snap .succeeded] =
      ({ cache := { predictionCache := [("p1", Poller.snap .succeeded)],
                    predictionStatus := [("p1", .succeeded)] },
         active := false, inFlight := 0 },
       [[], [],
        [Poller.Notification.statusNotif "p1" .processing .starting,
         Poller.Notification.progressNotif "p1" 50],
        [],
        [Poller.Notification.statusNotif "p1" .succeeded .processing]]) := by
  decide

/-- C5 counterexample: the poll callback has no in-flight guard, so two
timer fires with no intervening fetch completion leave two status fetches
in flight for the same job — refuting "at most one fetch in flight per
job". -/
theorem C5_counterexample_two_fetches_in_flight :
    (Poller.pollRunEvents "p1" Poller.initPollState
        [.tickFire, .tickFire]).1.inFlight = 2 ∧
      ¬ ((Poller.pollRunEvents "p1" Poller.initPollState
        [.tickFire, .tickFire]).1.inFlight ≤ 1) := by
  decide

/-- C5 amended: a poll tick performs no skip: while tracking is active,
every timer fire starts a new status fetch, increasing the number of
fetches in flight by one regardless of how many are already pending. -/
theorem C5_amended_tick_always_fetches (jobId : String)
    (st : Poller.PollState) (h : st.active = true) :
    (Poller.pollStep jobId st .tickFire).1.inFlight = st.inFlight + 1 := by
  simp [Poller.pollStep, h]

/-- Witness for C5 amended: one tick on the initial state (active, no
fetch pending) leaves one fetch in flight. -/
theorem C5_amended_tick_always_fetches_witness :
    (Poller.pollStep "p1" Poller.initPollState .tickFire).1.inFlight =
      Poller.initPollState.inFlight + 1 :=
  C5_amended_tick_always_fetches "p1" Poller.initPollState (by decide)

/-- C7 counterexample: cancelling a prediction whose cached status is
already `canceled` emits a status notification with
`fromStatus = toStatus = canceled` (the cancel handler checks only that a
previous status exists, not that it changed), refuting
"`fromStatus ≠ toStatus` always" — and, since `canceled` is terminal, also
refuting "no further transition event after a terminal status". -/
theorem C7_counterexample_cancel_unchanged :
    (Poller.handleCancelPrediction
        { predictionCache := [("p1", Poller.snap .canceled)],
          predictionStatus := [("p1", .canceled)] }
        (Poller.snap .canceled)).2 =
      [Poller.Notification.statusNotif "p1" .canceled .canceled] ∧
    ¬ (∀ n ∈ (Poller.handleCancelPrediction
        { predictionCache := [("p1", Poller.snap .canceled)],
          predictionStatus := [("p1", .canceled)] }
        (Poller.snap .canceled)).2, Poller.transitionOk n = true) := by
  decide

theorem pollTickBody_transitionOk (jobId : String) (st : Poller.PollState)
    (u : Poller.Prediction) :
    ((Poller.pollTickBody jobId st u).2).all Poller.transitionOk = true := by
  unfold Poller.pollTickBody
  cases hprev : JsMap.get st.cache.predictionStatus jobId with
  | none => simp
  | some p =>
    by_cases hne : u.status = p
    · simp [hne]
    · cases hu : u.status <;> cases he : u.error <;>
        simp_all [Poller.transitionOk, Poller.PredictionStatus.isTerminal,
          Poller.createPredictionStatusNotification,
          Poller.createPredictionProgressNotification,
          Poller.createPredictionErrorNotification, bne_iff_ne]

theorem handleGetPrediction_transitionOk (c : Poller.Cache)
    (prediction : Poller.Prediction) :
    ((Poller.handleGetPrediction c prediction).2).all
      Poller.transitionOk = true := by
  unfold Poller.handleGetPrediction
  cases hprev : JsMap.get c.predictionStatus prediction.id with
  | none => simp
  | some p =>
    by_cases hne : prediction.status = p
    · simp [hne]
    · cases hu : prediction.status <;> cases he : prediction.error <;>
        simp_all [Poller.transitionOk,
          Poller.createPredictionStatusNotification,
          Poller.createPredictionErrorNotification, bne_iff_ne]

theorem pollStep_transitionOk (jobId : String) (st : Poller.PollState)
    (e : Poller.PollEvent) :
    ((Poller.pollStep jobId st e).2).all Poller.transitionOk = true := by
  cases e with
  | tickFire => by_cases h : st.active <;> simp [Poller.pollStep, h]
  | fetchComplete u =>
    by_cases h : st.inFlight = 0
    · simp [Poller.pollStep, h]
    · simp [Poller.pollStep, h, pollTickBody_transitionOk]

theorem handleListPredictions_transitionOk (c : Poller.Cache)
    (ps : List Poller.Prediction) :
    ((Poller.handleListPredictions c ps).2).all Poller.transitionOk = true := by
  induction ps generalizing c with
  | nil => simp [Poller.handleListPredictions]
  | cons p rest ih =>
    simp [Poller.handleListPredictions, List.all_append,
      handleGetPrediction_transitionOk, ih]

theorem pollRunSnapshots_inactive (jobId : String) (st : Poller.PollState)
    (snaps : List Poller.Prediction) (ha : st.active = false)
    (hf : st.inFlight = 0) :
    Poller.pollRunSnapshots jobId st snaps =
      (st, List.replicate snaps.length []) := by
  induction snaps with
  | nil => simp [Poller.pollRunSnapshots]
  | cons u rest ih =>
    simp [Poller.pollRunSnapshots, Poller.pollStep, ha, hf, ih,
      List.replicate_succ]

/-- C7 amended: the poll tick, get and list handlers only ever emit status
notifications whose previous status differs from the new one
(`fromStatus ≠ toStatus`), and a poll loop whose repeating check has been
stopped (terminal status reached, no fetch pending) emits nothing further;
the cancel handler, by contrast, notifies whenever a previous status is
cached — even unchanged, and even past a terminal status (see the
counterexample). -/
theorem C7_amended_poll_get_list_transitions :
    (∀ jobId st e,
      ((Poller.pollStep jobId st e).2).all Poller.transitionOk = true) ∧
    (∀ c p,
      ((Poller.handleGetPrediction c p).2).all Poller.transitionOk = true) ∧
    (∀ c ps,
      ((Poller.handleListPredictions c ps).2).all Poller.transitionOk = true) ∧
    (∀ jobId st snaps, st.active = false → st.inFlight = 0 →
      Poller.pollRunSnapshots jobId st snaps =
        (st, List.replicate snaps.length [])) :=
  ⟨pollStep_transitionOk, handleGetPrediction_transitionOk,
   handleListPredictions_transitionOk, pollRunSnapshots_inactive⟩

/-- Witness for C7 amended: a concrete transition-emitting tick passes the
`fromStatus ≠ toStatus` check, and a stopped poll loop fed one more
snapshot emits nothing. -/
theorem C7_amended_poll_get_list_transitions_witness :
    ((Poller.pollStep "p1"
        { Poller.initPollState with inFlight := 1 }
        (.fetchComplete (Poller.snap .processing))).2).all
      Poller.transitionOk = true ∧
    Poller.pollRunSnapshots "p1" Poller.donePollState
        [Poller.snap .processing] =
      (Poller.donePollState,
       List.replicate [Poller.snap .processing].length []) :=
  ⟨C7_amended_poll_get_list_transitions.1 "p1"
      { Poller.initPollState with inFlight := 1 }
      (.fetchComplete (Poller.snap .processing)),
   C7_amended_poll_get_list_transitions.2.2.2 "p1" Poller.donePollState
      [Poller.snap .processing] (by decide) (by decide)⟩

theorem JsMap.get_del {β : Type} (m : List (String × β)) (key k : String) :
    JsMap.get (JsMap.del m key) k = if k = key then none else JsMap.get m k := by
  induction m with
  | nil => simp [JsMap.del, JsMap.get]
  | cons hd tl ih =>
    by_cases h1 : hd.1 = key
    · by_cases h2 : k = key
      · subst h2
        simp [JsMap.del, JsMap.get, h1, ih]
      · have h3 : ¬ key = k := fun h => h2 h.symm
        simp [JsMap.del, JsMap.get, h1, h2, h3, ih]
    · by_cases h2 : hd.1 = k
      · have h4 : ¬ k = key := by rw [← h2]; exact h1
        simp [JsMap.del, JsMap.get, h1, h2, h4]
      · simp [JsMap.del, JsMap.get, h1, h2, ih]

theorem JsMap.mem_keys_del {β : Type} (m : List (String × β)) (key x : String)
    (hx : x ∈ (JsMap.del m key).map Prod.fst) :
    x ∈ m.map Prod.fst ∧ x ≠ key := by
  induction m with
  | nil => simp [JsMap.del] at hx
  | cons hd tl ih =>
    by_cases h1 : hd.1 = key
    · rw [JsMap.del, if_pos h1] at hx
      rcases ih hx with ⟨h2, h3⟩
      exact ⟨by simp [h2], h3⟩
    · rw [JsMap.del, if_neg h1] at hx
      simp only [List.map_cons, List.mem_cons] at hx ⊢
      rcases hx with hx | hx
      · refine ⟨Or.inl hx, ?_⟩
        rw [hx]
        exact h1
      · rcases ih hx with ⟨h2, h3⟩
        exact ⟨Or.inr h2, h3⟩

theorem JsMap.get_of_mem_nodup {β : Type} (m : List (String × β))
    (hnd : (m.map Prod.fst).Nodup) (k : String) (v : β)
    (hm : (k, v) ∈ m) : JsMap.get m k = some v := by
  induction m with
  | nil => simp at hm
  | cons hd tl ih =>
    rw [List.map_cons, List.nodup_cons] at hnd
    rcases List.mem_cons.mp hm with rfl | hm
    · simp [JsMap.get]
    · have hk : hd.1 ≠ k := by
        intro h
        exact hnd.1 (by rw [h]; exact List.mem_map.mpr ⟨(k, v), hm, rfl⟩)
      simp [JsMap.get, hk, ih hnd.2 hm]

theorem JsMap.mem_of_get {β : Type} (m : List (String × β)) (k : String)
    (v : β) (hg : JsMap.get m k = some v) : (k, v) ∈ m := by
  induction m with
  | nil => simp [JsMap.get] at hg
  | cons hd tl ih =>
    obtain ⟨a, b⟩ := hd
    rw [show JsMap.get ((a, b) :: tl) k =
        if a = k then some b else JsMap.get tl k from rfl] at hg
    by_cases h1 : a = k
    · rw [if_pos h1] at hg
      injection hg with hg
      subst h1
      rw [← hg]
      exact List.mem_cons_self _ _
    · rw [if_neg h1] at hg
      exact List.mem_cons_of_mem _ (ih hg)

theorem Transport.mem_notify_iff (st : Transport.SSEServerTransport)
    (u cid : String) (hnd : (st.subscriptions.map Prod.fst).Nodup) :
    cid ∈ Transport.notify st (some u) ↔
      (JsMap.get st.connections cid = some Transport.ReadyState.opened ∧
       ((JsMap.get st.subscriptions cid).getD []).contains u = true) := by
  unfold Transport.notify
  rw [List.mem_filterMap]
  constructor
  · rintro ⟨⟨k, subs⟩, hmem, hf⟩
    rcases hg : JsMap.get st.connections k with _ | rs
    · simp [hg] at hf
    · rcases rs <;> simp [hg] at hf
      obtain ⟨hu, rfl⟩ := hf
      have hs := JsMap.get_of_mem_nodup _ hnd k subs hmem
      rw [hs, hg]
      exact ⟨rfl, by simpa using hu⟩
  · rintro ⟨h1, h2⟩
    rcases hs : JsMap.get st.subscriptions cid with _ | subs
    · rw [hs] at h2
      simp at h2
    · rw [hs] at h2
      refine ⟨(cid, subs), JsMap.mem_of_get _ _ _ hs, ?_⟩
      simp only [h1]
      simpa using h2

theorem Transport.cleanup_connections (st : Transport.SSEServerTransport)
    (cid : String) :
    (Transport.cleanupConnection st cid).connections =
      JsMap.del st.connections cid := by
  by_cases h : JsMap.del st.connections cid = [] <;>
    simp [Transport.cleanupConnection, h]

theorem Transport.foldl_cleanup_connections (ks : List String)
    (st : Transport.SSEServerTransport) :
    (ks.foldl Transport.cleanupConnection st).connections =
      ks.foldl JsMap.del st.connections := by
  induction ks generalizing st with
  | nil => rfl
  | cons k ks ih =>
    simp only [List.foldl_cons, ih, Transport.cleanup_connections]

theorem JsMap.foldl_del_all {β : Type} (ks : List String)
    (m : List (String × β)) (h : ∀ x ∈ m.map Prod.fst, x ∈ ks) :
    ks.foldl JsMap.del m = [] := by
  induction ks generalizing m with
  | nil =>
    match m with
    | [] => rfl
    | hd :: tl => exact absurd (h hd.1 (by simp)) (by simp)
  | cons k ks ih =>
    rw [List.foldl_cons]
    apply ih
    intro x hx
    rcases JsMap.mem_keys_del m k x hx with ⟨h2, h3⟩
    rcases List.mem_cons.mp (h x h2) with h4 | h4
    · exact absurd h4 h3
    · exact h4

theorem Transport.disconnect_connections (st : Transport.SSEServerTransport) :
    (Transport.disconnect st).connections = [] := by
  unfold Transport.disconnect
  rw [Transport.foldl_cleanup_connections]
  exact JsMap.foldl_del_all _ _ (fun x hx => hx)

theorem Transport.notify_no_connections (st : Transport.SSEServerTransport)
    (uri : Option String) (h : st.connections = []) :
    Transport.notify st uri = [] := by
  unfold Transport.notify
  rw [List.filterMap_eq_nil_iff]
  intro cs _
  rw [h]
  rfl

/-- C4: with unique subscription-map keys (a JS `Map` invariant),
`notify(event)` delivers to exactly those connection ids whose connection
is in the `OPEN` state and whose own subscription set contains the event's
resource URI; and after `disconnect()`, `notify` delivers to nobody (the
model is a total function, so it cannot throw). -/
theorem C4_notify_delivery (st : Transport.SSEServerTransport) (u : String)
    (hnd : (st.subscriptions.map Prod.fst).Nodup) :
    (∀ cid, cid ∈ Transport.notify st (some u) ↔
      (JsMap.get st.connections cid = some Transport.ReadyState.opened ∧
       ((JsMap.get st.subscriptions cid).getD []).contains u = true)) ∧
    Transport.notify (Transport.disconnect st) (some u) = [] :=
  ⟨fun cid => Transport.mem_notify_iff st u cid hnd,
   Transport.notify_no_connections _ _ (Transport.disconnect_connections st)⟩

/-- Witness for C4: connection `c1` is open and subscribed to `job://1`,
so `notify` for `job://1` delivers to it, `notify` for `job://2` delivers
to nobody, and after `disconnect()` `notify` delivers to nobody. -/
theorem C4_notify_delivery_witness :
    "c1" ∈ Transport.notify Transport.st1conn (some "job://1") ∧
    Transport.notify Transport.st1conn (some "job://2") = [] ∧
    Transport.notify (Transport.disconnect Transport.st1conn)
      (some "job://1") = [] := by
  exact ⟨((C4_notify_delivery Transport.st1conn "job://1"
      (by decide)).1 "c1").mpr (by decide), (by decide),
    (C4_notify_delivery Transport.st1conn "job://1" (by decide)).2⟩

/-- C6 counterexample: with one open connection `c1`, an error on `c1`
schedules a reconnect sleep; `disconnect()` then tears everything down —
but leaves the pending reconnect in place (nothing stores that timer, so
nothing cancels it), and when the sleep finishes the reconnect path
re-opens a connection without consulting the `isConnected` flag.  This
refutes both "every pending reconnect timer is cancelled" and "no
automatic reconnection is performed once `disconnect()` has begun". -/
theorem C6_counterexample_reconnect_after_disconnect :
    (Transport.disconnect (Transport.onError Transport.st1conn "c1")
      ).pendingReconnects = ["c1"] ∧
    (Transport.reconnectFire
        (Transport.disconnect (Transport.onError Transport.st1conn "c1"))
        "c1").connections =
      [("c1", Transport.ReadyState.connecting)] ∧
    (Transport.reconnectFire
        (Transport.disconnect (Transport.onError Transport.st1conn "c1"))
        "c1").connections ≠ [] := by
  refine ⟨by decide, by decide, by decide⟩

theorem Transport.cleanup_keepAlive (st : Transport.SSEServerTransport)
    (cid : String) :
    (Transport.cleanupConnection st cid).keepAliveIntervals =
      st.keepAliveIntervals.filter (fun x => x != cid) := by
  by_cases h : JsMap.del st.connections cid = [] <;>
    simp [Transport.cleanupConnection, h]

theorem Transport.cleanup_subscriptions (st : Transport.SSEServerTransport)
    (cid : String) :
    (Transport.cleanupConnection st cid).subscriptions =
      JsMap.del st.subscriptions cid := by
  by_cases h : JsMap.del st.connections cid = [] <;>
    simp [Transport.cleanupConnection, h]

theorem Transport.cleanup_pending (st : Transport.SSEServerTransport)
    (cid : String) :
    (Transport.cleanupConnection st cid).pendingReconnects =
      st.pendingReconnects := by
  by_cases h : JsMap.del st.connections cid = [] <;>
    simp [Transport.cleanupConnection, h]

theorem Transport.cleanup_isConnected (st : Transport.SSEServerTransport)
    (cid : String) :
    (Transport.cleanupConnection st cid).isConnected = st.isConnected := by
  by_cases h : JsMap.del st.connections cid = [] <;>
    simp [Transport.cleanupConnection, h]

theorem Transport.cleanup_events (st : Transport.SSEServerTransport)
    (cid : String) :
    (Transport.cleanupConnection st cid).events =
      if JsMap.del st.connections cid = [] then
        st.events ++ [Transport.TransportEvent.disconnectedEv]
      else st.events := by
  by_cases h : JsMap.del st.connections cid = [] <;>
    simp [Transport.cleanupConnection, h]

theorem Transport.foldl_cleanup_subscriptions (ks : List String)
    (st : Transport.SSEServerTransport) :
    (ks.foldl Transport.cleanupConnection st).subscriptions =
      ks.foldl JsMap.del st.subscriptions := by
  induction ks generalizing st with
  | nil => rfl
  | cons k ks ih =>
    simp only [List.foldl_cons, ih, Transport.cleanup_subscriptions]

theorem Transport.foldl_cleanup_keepAlive (ks : List String)
    (st : Transport.SSEServerTransport) :
    (ks.foldl Transport.cleanupConnection st).keepAliveIntervals =
      ks.foldl (fun l k => l.filter (fun x => x != k))
        st.keepAliveIntervals := by
  induction ks generalizing st with
  | nil => rfl
  | cons k ks ih =>
    simp only [List.foldl_cons, ih, Transport.cleanup_keepAlive]

theorem Transport.foldl_cleanup_pending (ks : List String)
    (st : Transport.SSEServerTransport) :
    (ks.foldl Transport.cleanupConnection st).pendingReconnects =
      st.pendingReconnects := by
  induction ks generalizing st with
  | nil => rfl
  | cons k ks ih =>
    simp only [List.foldl_cons, ih, Transport.cleanup_pending]

theorem Transport.foldl_cleanup_isConnected (ks : List String)
    (st : Transport.SSEServerTransport) :
    (ks.foldl Transport.cleanupConnection st).isConnected =
      st.isConnected := by
  induction ks generalizing st with
  | nil => rfl
  | cons k ks ih =>
    simp only [List.foldl_cons, ih, Transport.cleanup_isConnected]

theorem JsMap.get_foldl_del {β : Type} (ks : List String)
    (m : List (String × β)) (k : String) :
    JsMap.get (ks.foldl JsMap.del m) k =
      if k ∈ ks then none else JsMap.get m k := by
  induction ks generalizing m with
  | nil => simp
  | cons k1 ks ih =>
    rw [List.foldl_cons, ih, JsMap.get_del]
    by_cases h1 : k ∈ ks <;> by_cases h2 : k = k1 <;> simp [h1, h2]

theorem List.mem_foldl_filter_ne (ks : List String) (l : List String)
    (x : String) :
    x ∈ ks.foldl (fun l k => l.filter (fun y => y != k)) l ↔
      x ∈ l ∧ x ∉ ks := by
  induction ks generalizing l with
  | nil => simp
  | cons k1 ks ih =>
    rw [List.foldl_cons, ih, List.mem_filter]
    simp only [bne_iff_ne, List.mem_cons, not_or, and_assoc]

theorem JsMap.del_not_mem {β : Type} (m : List (String × β)) (k : String)
    (h : k ∉ m.map Prod.fst) : JsMap.del m k = m := by
  induction m with
  | nil => rfl
  | cons hd tl ih =>
    simp only [List.map_cons, List.mem_cons, not_or] at h
    rw [JsMap.del, if_neg (fun he => h.1 he.symm), ih h.2]

theorem Transport.disconnect_fold_events :
    ∀ (m : List (String × Transport.ReadyState))
      (st : Transport.SSEServerTransport),
      st.connections = m → m ≠ [] → (m.map Prod.fst).Nodup →
      ((m.map Prod.fst).foldl Transport.cleanupConnection st).events =
        st.events ++ [Transport.TransportEvent.disconnectedEv] := by
  intro m
  induction m with
  | nil => intro st _ hne _; exact absurd rfl hne
  | cons hd m1 ih =>
    intro st hconn _ hnd
    obtain ⟨k, v⟩ := hd
    rw [List.map_cons, List.nodup_cons] at hnd
    have hdel : JsMap.del st.connections k = m1 := by
      rw [hconn]
      rw [show JsMap.del ((k, v) :: m1) k = JsMap.del m1 k from by
        rw [JsMap.del, if_pos rfl]]
      exact JsMap.del_not_mem m1 k hnd.1
    rcases hm1 : m1 with _ | ⟨hd1, m2⟩
    · subst hm1
      simp only [List.map_cons, List.map_nil, List.foldl_cons, List.foldl_nil]
      rw [Transport.cleanup_events, hdel]
      simp
    · rw [← hm1]
      simp only [List.map_cons, List.foldl_cons]
      have hne1 : m1 ≠ [] := by rw [hm1]; exact List.cons_ne_nil _ _
      have hev := Transport.cleanup_events st k
      rw [hdel, if_neg hne1] at hev
      rw [ih (Transport.cleanupConnection st k)
          (by rw [Transport.cleanup_connections, hdel]) hne1 hnd.2, hev]

theorem Transport.disconnect_events (st : Transport.SSEServerTransport)
    (hne : st.connections ≠ []) (hnd : (st.connections.map Prod.fst).Nodup) :
    (Transport.disconnect st).events =
      st.events ++ [Transport.TransportEvent.disconnectedEv] :=
  Transport.disconnect_fold_events st.connections
    { st with isConnected := false } rfl hne hnd

theorem Transport.disconnect_isConnected (st : Transport.SSEServerTransport) :
    (Transport.disconnect st).isConnected = false := by
  unfold Transport.disconnect
  rw [Transport.foldl_cleanup_isConnected]

theorem Transport.disconnect_idem (st : Transport.SSEServerTransport) :
    Transport.disconnect (Transport.disconnect st) = Transport.disconnect st := by
  have hc := Transport.disconnect_connections st
  have hi := Transport.disconnect_isConnected st
  generalize hg : Transport.disconnect st = s2 at hc hi ⊢
  obtain ⟨c, ka, ra, su, ic, pr, ev⟩ := s2
  simp only at hc hi
  subst hc
  subst hi
  rfl

/-- C6 amended: `disconnect()` sets the do-not-auto-reconnect flag, empties
the connection table, cancels the keep-alive timer and discards the
subscriptions of every torn-down connection, fires exactly one
`disconnected` event once no connections remain, and is idempotent — but
it leaves every pending reconnect sleep in place (the backoff timer is
stored nowhere, so nothing cancels it), and the reconnect path never
consults the flag, so a reconnection scheduled before `disconnect()` still
re-opens a connection afterwards (see the counterexample). -/
theorem C6_amended_disconnect (st : Transport.SSEServerTransport)
    (hnd : (st.connections.map Prod.fst).Nodup)
    (hne : st.connections ≠ []) :
    (Transport.disconnect st).isConnected = false ∧
    (Transport.disconnect st).connections = [] ∧
    (∀ cid ∈ st.connections.map Prod.fst,
      cid ∉ (Transport.disconnect st).keepAliveIntervals ∧
      JsMap.get (Transport.disconnect st).subscriptions cid = none) ∧
    (Transport.disconnect st).pendingReconnects = st.pendingReconnects ∧
    (Transport.disconnect st).events =
      st.events ++ [Transport.TransportEvent.disconnectedEv] ∧
    Transport.disconnect (Transport.disconnect st) =
      Transport.disconnect st := by
  refine ⟨Transport.disconnect_isConnected st,
    Transport.disconnect_connections st, ?_, ?_,
    Transport.disconnect_events st hne hnd,
    Transport.disconnect_idem st⟩
  · intro cid hcid
    constructor
    · show cid ∉ (Transport.disconnect st).keepAliveIntervals
      unfold Transport.disconnect
      rw [Transport.foldl_cleanup_keepAlive]
      intro hmem
      exact ((List.mem_foldl_filter_ne _ _ _).mp hmem).2 hcid
    · show JsMap.get (Transport.disconnect st).subscriptions cid = none
      unfold Transport.disconnect
      rw [Transport.foldl_cleanup_subscriptions, JsMap.get_foldl_del,
        if_pos hcid]
  · unfold Transport.disconnect
    rw [Transport.foldl_cleanup_pending]

/-- Witness for C6 amended at the single-connection transport: the flag is
cleared, `c1`'s keep-alive timer is cancelled, exactly one `disconnected`
event fires, and a second `disconnect()` changes nothing. -/
theorem C6_amended_disconnect_witness :
    (Transport.disconnect Transport.st1conn).isConnected = false ∧
    "c1" ∉ (Transport.disconnect Transport.st1conn).keepAliveIntervals ∧
    (Transport.disconnect Transport.st1conn).events =
      Transport.st1conn.events ++
        [Transport.TransportEvent.disconnectedEv] ∧
    Transport.disconnect (Transport.disconnect Transport.st1conn) =
      Transport.disconnect Transport.st1conn := by
  have h := C6_amended_disconnect Transport.st1conn (by decide) (by decide)
  exact ⟨h.1, (h.2.2.1 "c1" (by decide)).1, h.2.2.2.2.1, h.2.2.2.2.2⟩

/-- C3: for every delivery queued with `retries = 2` (any URL, secret and
event) against an endpoint answering HTTP 500 to every attempt, exactly 3
attempts are made and 3 results recorded (the initial attempt plus 2
retries, `retryCount` 0, 1, 2), every result has `success = false`, and
afterwards the delivery id is gone from the pending queue while the
history remains queryable through `getDeliveryResults`. -/
theorem C3_webhook_exhausts_retries (url : String) (secret : Option String)
    (ev : Webhook.WebhookEvent) :
    Webhook.getDeliveryResults
        (Webhook.runAlways500
          (Webhook.queueWebhook Webhook.emptyWebhookService
            { url := some url, secret := secret, retries := some 2,
              timeout := none } ev "wh-1").1
          "wh-1" 10 0) "wh-1" =
      [{ success := false, statusCode := some 500,
         error := some "HTTP 500: Internal Server Error",
         retryCount := 0, timestamp := 0 },
       { success := false, statusCode := some 500,
         error := some "HTTP 500: Internal Server Error",
         retryCount := 1, timestamp := 1000 },
       { success := false, statusCode := some 500,
         error := some "HTTP 500: Internal Server Error",
         retryCount := 2, timestamp := 3000 }] ∧
    JsMap.get
        (Webhook.runAlways500
          (Webhook.queueWebhook Webhook.emptyWebhookService
            { url := some url, secret := secret, retries := some 2,
              timeout := none } ev "wh-1").1
          "wh-1" 10 0).queue "wh-1" = none := by
  refine ⟨?_, ?_⟩
  · simp only [Webhook.queueWebhook, Webhook.runAlways500,
      Webhook.deliverWebhook, Webhook.recordDeliveryResult,
      Webhook.getDeliveryResults, Webhook.mergeConfig,
      Webhook.calculateRetryDelay, Webhook.emptyWebhookService,
      JsMap.get, JsMap.set, JsMap.del]
    decide
  · simp [Webhook.queueWebhook, Webhook.runAlways500, Webhook.deliverWebhook,
      Webhook.recordDeliveryResult, Webhook.getDeliveryResults,
      Webhook.mergeConfig, Webhook.calculateRetryDelay,
      Webhook.emptyWebhookService, JsMap.get, JsMap.set, JsMap.del]

/-- C8 counterexample: a config with `retries = -1` is rejected by
`validateWebhookConfig`, yet `queueWebhook` — which performs no validation
at all — still enqueues the delivery and returns its id instead of
surfacing the validation error. -/
theorem C8_counterexample_queueWebhook_skips_validation :
    Webhook.validateWebhookConfig
        (Webhook.mergeConfig
          { url := some "https://example.com/hook", secret := none,
            retries := some (-1), timeout := none }) ≠ [] ∧
    (JsMap.get
        (Webhook.queueWebhook Webhook.emptyWebhookService
          { url := some "https://example.com/hook", secret := none,
            retries := some (-1), timeout := none }
          { type := "prediction.succeeded", timestamp := "t", data := "d" }
          "wh-1").1.queue "wh-1").isSome = true ∧
    (Webhook.queueWebhook Webhook.emptyWebhookService
        { url := some "https://example.com/hook", secret := none,
          retries := some (-1), timeout := none }
        { type := "prediction.succeeded", timestamp := "t", data := "d" }
        "wh-1").2 = "wh-1" := by
  refine ⟨by decide, by decide, by decide⟩

/-- C8 amended: `queueWebhook` performs no validation: for every partial
config — valid or not — it enqueues a pending delivery (defaults merged
in, `retryCount = 0`) under the fresh id and returns that id; validation
errors surface only when the caller invokes `validateWebhookConfig`
itself. -/
theorem C8_amended_queueWebhook_always_enqueues
    (st : Webhook.WebhookService) (p : Webhook.PartialWebhookConfig)
    (ev : Webhook.WebhookEvent) (freshId : String) :
    (Webhook.queueWebhook st p ev freshId).2 = freshId ∧
    JsMap.get (Webhook.queueWebhook st p ev freshId).1.queue freshId =
      some { id := freshId, config := Webhook.mergeConfig p, event := ev,
             retryCount := 0, lastAttempt := none, nextAttempt := none } :=
  ⟨rfl, by simp [Webhook.queueWebhook, JsMap.get_set_self]⟩

theorem Crypto.digestBytes_length (h : Crypto.Hash8) :
    (Crypto.digestBytes h).length = 32 := rfl

theorem Crypto.sha256_length (msg : List Nat) :
    (Crypto.sha256 msg).length = 32 :=
  Crypto.digestBytes_length _

theorem Crypto.hexBytes_length (bs : List Nat) :
    (Crypto.hexBytes bs).length = 2 * bs.length := by
  induction bs with
  | nil => rfl
  | cons b rest ih =>
    simp only [Crypto.hexBytes, List.length_cons, ih]
    omega

theorem Crypto.generateWebhookSignature_length (payload secret : List Nat) :
    (Crypto.generateWebhookSignature payload secret).length = 71 := by
  simp [Crypto.generateWebhookSignature, Crypto.sha256Prefix,
    Crypto.hexBytes_length, Crypto.sha256_length,
    Crypto.hmacSha256]

/-- Round-trip acceptance (the provable half of the signature claim): for
every payload and secret, verifying the signature that
`generateWebhookSignature` just produced succeeds with `true`. -/
theorem Crypto.verify_roundtrip (payload secret : List Nat) :
    Crypto.verifyWebhookSignature payload
      (Crypto.generateWebhookSignature payload secret) secret =
      Except.ok true := by
  unfold Crypto.verifyWebhookSignature Crypto.timingSafeEqual
  simp

/-- C10: `verifyWebhookSignature` recomputes the expected signature —
always 71 bytes, `sha256=` plus 64 hex digits — and hands both buffers to
`crypto.timingSafeEqual`, which throws on a length mismatch; so any
signature whose byte length is not 71 makes the function throw instead of
returning `false`. -/
theorem C10_verify_throws_on_length_mismatch
    (payload signature secret : List Nat) (h : signature.length ≠ 71) :
    Crypto.verifyWebhookSignature payload signature secret =
      Except.error "Input buffers must have the same byte length" := by
  unfold Crypto.verifyWebhookSignature Crypto.timingSafeEqual
  simp [Crypto.generateWebhookSignature_length, h]

/-- Witness for C10: the empty signature (length 0 ≠ 71) makes
verification throw. -/
theorem C10_verify_throws_on_length_mismatch_witness :
    (([] : List Nat).length ≠ 71) ∧
    Crypto.verifyWebhookSignature [1] [] [2] =
      Except.error "Input buffers must have the same byte length" :=
  ⟨by decide, C10_verify_throws_on_length_mismatch [1] [] [2] (by decide)⟩
